import Mathlib

/-
Verification of the linear epistasis decomposition engine
(epistasis/models/linear.py: LocalEpistasisModel, GlobalEpistasisModel,
hadamard_weight_vector, cut_interaction_labels).

Numbers are modelled by exact rationals; numpy.linalg.inv is modelled by exact
matrix inversion over ℚ that fails (LinAlgError) exactly on singular input.
Coefficient errors involve a square root and live in ℝ.

The models operate on binary-encoded genotypes (Binary.genotypes), as delivered
by the external genotype-phenotype source, so a genotype here is a list of the
characters '0'/'1' and the phenotype/error vectors are aligned with it.
-/

/-- Determinant by Laplace expansion along the first row; a computable version
of Matrix.det over ℚ (used to model the singularity test of numpy.linalg.inv). -/
def detExpand : {n : ℕ} → Matrix (Fin n) (Fin n) ℚ → ℚ
  | 0, _ => 1
  | n+1, A => ∑ j : Fin (n+1), (-1) ^ (j : ℕ) * A 0 j * detExpand (A.submatrix Fin.succ j.succAbove)

/-- Adjugate via cofactors; a computable version of Matrix.adjugate over ℚ. -/
def adjugateExpand : {n : ℕ} → Matrix (Fin n) (Fin n) ℚ → Matrix (Fin n) (Fin n) ℚ
  | 0, _ => fun i _ => i.elim0
  | _+1, A => fun i j => (-1) ^ ((j : ℕ) + (i : ℕ)) * detExpand (A.submatrix j.succAbove i.succAbove)

/-- Model of numpy.linalg.inv on a square matrix: raises LinAlgError exactly on
singular input, and otherwise returns the exact inverse (det⁻¹ · adjugate). -/
def matInv {n : ℕ} (A : Matrix (Fin n) (Fin n) ℚ) : Except String (Matrix (Fin n) (Fin n) ℚ) :=
  if detExpand A = 0 then .error "LinAlgError: Singular matrix"
  else .ok ((detExpand A)⁻¹ • adjugateExpand A)

/-- Binary-encoded genotype: a string over the characters '0'/'1'. -/
abbrev Genotype := List Char

/-- Interaction label: the (1-based) sites taking part in the interaction;
the empty label is the intercept. -/
abbrev Label := List ℕ

/-- Source LocalEpistasisModel.__init__ encoding dict for generate_dv_matrix:
the character '1' maps to 1 and '0' maps to 0. -/
def encodingLocal (c : Char) : ℚ := if c = '1' then 1 else 0

/-- Source GlobalEpistasisModel.__init__ encoding dict for generate_dv_matrix:
the character '1' maps to 1 and '0' maps to -1. -/
def encodingGlobal (c : Char) : ℚ := if c = '1' then 1 else -1

/-- Modelled from the spec: design-matrix entry of generate_dv_matrix (imported
from epistasis.decomposition, whose source is not part of the listing): the
entry for a genotype row and an interaction label is the product over the sites
of the label of the encoded genotype character at that 1-based site; the empty
label gives the empty product 1 (intercept column of ones). -/
def dvEntry (enc : Char → ℚ) (g : Genotype) (label : Label) : ℚ :=
  (label.map fun site => enc (g.getD (site - 1) '0')).prod

/-- Modelled from the spec: all size-k subsets of the (ordered) site list, each
a strictly increasing tuple, enumerated in lexicographic order. -/
def kCombinations : ℕ → List ℕ → List (List ℕ)
  | 0, _ => [[]]
  | _+1, [] => []
  | k+1, x :: xs => ((kCombinations k xs).map fun t => x :: t) ++ kCombinations (k+1) xs

/-- Modelled from the spec: the interaction enumerator (BaseModel
_construct_interactions, whose source is not part of the listing): all labels
of size 0..order over sites {1,...,n}, ascending order-by-order and
lexicographic within an order; the order-0 label is the intercept. -/
def interactionLabels (n order : ℕ) : List Label :=
  (((List.range (order + 1)).map fun s => kCombinations s (List.range' 1 n))).flatten

/-- Label list of a model: order defaults to the full sequence length
(self.order = self.length), so labels of size 0..len(wildtype). -/
def modelLabels (wildtype : Genotype) : List Label :=
  interactionLabels wildtype.length wildtype.length

/-- Source cut_interaction_labels: keep the labels of size at most order. -/
def cut_interaction_labels (labels : List Label) (order : ℕ) : List Label :=
  labels.filter fun l => l.length ≤ order

/-- Source hadamard_weight_vector: an l×l matrix (l = number of genotypes) that
is zero off the diagonal and whose diagonal entry for genotype g is
(-1)^k / 2^(n-k), where k is the number of '1' characters of g and n is the
length of the first genotype; the Python float exponent n-k is modelled by an
integer exponent (zpow). -/
def hadamard_weight_vector (genotypes : List Genotype) :
    Matrix (Fin genotypes.length) (Fin genotypes.length) ℚ :=
  Matrix.of fun g gg =>
    if g = gg then
      ((-1 : ℚ) ^ ((genotypes.get g).count '1')) /
        (2 : ℚ) ^ ((((genotypes.headD []).length : ℤ)) - (((genotypes.get g).count '1' : ℕ) : ℤ))
    else 0

/-- The design matrix X for the exactly-determined case (genotype count equals
label count): square, rows indexed by genotypes, columns by labels. -/
def designMatrix (enc : Char → ℚ) (genotypes : List Genotype) (labels : List Label) :
    Matrix (Fin genotypes.length) (Fin genotypes.length) ℚ :=
  Matrix.of fun i j => dvEntry enc (genotypes.get i) (labels.getD (j : ℕ) [])

/-- State of a fitted or unfitted epistasis model: the inputs, the label list,
the design matrix X with its cached inverse, and the two mutable outputs
(Interactions.values, Interactions.errors), absent until fit/fit_error runs. -/
structure EpistasisModel where
  size : ℕ
  genotypes : List Genotype
  phenotypes : List ℚ
  phen_errors : Option (List ℚ)
  order : ℕ
  labels : List Label
  X : Matrix (Fin size) (Fin size) ℚ
  X_inv : Matrix (Fin size) (Fin size) ℚ
  values : Option (Fin size → ℚ)
  errors : Option (Fin size → ℝ)

/-- True when a supplied error list is misaligned with the genotype list. -/
def errorsLengthBad (er : Option (List ℚ)) (genotypes : List Genotype) : Bool :=
  match er with
  | some es => es.length != genotypes.length
  | none => false

/-- Modelled from the spec: the construction shared by both model classes
(BaseModel validation of aligned lengths, order = sequence length, label
enumeration, design-matrix build, one-time inversion), parameterized by the
character encoding; the spec (§9) prescribes exactly this single parameterized
component. Inversion failure surfaces as the LinAlgError of matInv. -/
def mkModelWith (enc : Char → ℚ) (wildtype : Genotype) (genotypes : List Genotype)
    (phenotypes : List ℚ) (errors : Option (List ℚ)) : Except String EpistasisModel :=
  if phenotypes.length ≠ genotypes.length then
    .error "ConfigurationError: genotypes and phenotypes are misaligned"
  else if errorsLengthBad errors genotypes then
    .error "ConfigurationError: genotypes and errors are misaligned"
  else if (modelLabels wildtype).length ≠ genotypes.length then
    .error "LinAlgError: Last 2 dimensions of the array must be square"
  else
    match matInv (designMatrix enc genotypes (modelLabels wildtype)) with
    | .error e => .error e
    | .ok Xi =>
      .ok { size := genotypes.length
            genotypes := genotypes
            phenotypes := phenotypes
            phen_errors := errors
            order := wildtype.length
            labels := modelLabels wildtype
            X := designMatrix enc genotypes (modelLabels wildtype)
            X_inv := Xi
            values := none
            errors := none }

/-- Source LocalEpistasisModel.__init__: order = sequence length, labels from
the interaction enumerator, X = generate_dv_matrix(genotypes, labels,
encoding = ('1' to 1, '0' to 0)), X_inv = numpy.linalg.inv(X). -/
def mkLocalModel (wildtype : Genotype) (genotypes : List Genotype)
    (phenotypes : List ℚ) (errors : Option (List ℚ)) : Except String EpistasisModel :=
  if phenotypes.length ≠ genotypes.length then
    .error "ConfigurationError: genotypes and phenotypes are misaligned"
  else if errorsLengthBad errors genotypes then
    .error "ConfigurationError: genotypes and errors are misaligned"
  else if (modelLabels wildtype).length ≠ genotypes.length then
    .error "LinAlgError: Last 2 dimensions of the array must be square"
  else
    match matInv (designMatrix encodingLocal genotypes (modelLabels wildtype)) with
    | .error e => .error e
    | .ok Xi =>
      .ok { size := genotypes.length
            genotypes := genotypes
            phenotypes := phenotypes
            phen_errors := errors
            order := wildtype.length
            labels := modelLabels wildtype
            X := designMatrix encodingLocal genotypes (modelLabels wildtype)
            X_inv := Xi
            values := none
            errors := none }

/-- Source GlobalEpistasisModel.__init__: identical construction except that
the encoding maps '0' to -1 ('1' to 1 as before). -/
def mkGlobalModel (wildtype : Genotype) (genotypes : List Genotype)
    (phenotypes : List ℚ) (errors : Option (List ℚ)) : Except String EpistasisModel :=
  if phenotypes.length ≠ genotypes.length then
    .error "ConfigurationError: genotypes and phenotypes are misaligned"
  else if errorsLengthBad errors genotypes then
    .error "ConfigurationError: genotypes and errors are misaligned"
  else if (modelLabels wildtype).length ≠ genotypes.length then
    .error "LinAlgError: Last 2 dimensions of the array must be square"
  else
    match matInv (designMatrix encodingGlobal genotypes (modelLabels wildtype)) with
    | .error e => .error e
    | .ok Xi =>
      .ok { size := genotypes.length
            genotypes := genotypes
            phenotypes := phenotypes
            phen_errors := errors
            order := wildtype.length
            labels := modelLabels wildtype
            X := designMatrix encodingGlobal genotypes (modelLabels wildtype)
            X_inv := Xi
            values := none
            errors := none }

/-- Phenotype vector of a model, aligned with the genotype rows. -/
def phenVec (m : EpistasisModel) : Fin m.size → ℚ := fun i => m.phenotypes.getD (i : ℕ) 0

/-- Source LocalEpistasisModel.fit: Interactions.values = X_inv · phenotypes. -/
def fitLocal (m : EpistasisModel) : EpistasisModel :=
  { m with values := some (m.X_inv.mulVec (phenVec m)) }

/-- Source GlobalEpistasisModel.fit: Interactions.values =
(1/n) · (X_inv · phenotypes); per the spec, n is the number of genotypes. -/
def fitGlobal (m : EpistasisModel) : EpistasisModel :=
  { m with values := some (fun i => (1 / (m.size : ℚ)) * m.X_inv.mulVec (phenVec m) i) }

/-- Source LocalEpistasisModel.fit_error: Interactions.errors =
sqrt(X · errors²); accessing phenotype errors that were never supplied fails
(the spec's PreconditionError, an AttributeError in Python). -/
noncomputable def fitErrorLocal (m : EpistasisModel) : Except String EpistasisModel :=
  match m.phen_errors with
  | none => .error "AttributeError: no phenotype errors were supplied"
  | some es =>
    .ok { m with errors := some (fun i =>
      Real.sqrt ((∑ j, m.X i j * (es.getD (j : ℕ) 0) ^ 2 : ℚ) : ℝ)) }

/-- Source GlobalEpistasisModel.fit_error: Interactions.errors =
sqrt((1/n)² · abs(X) · errors²), with abs taken elementwise; accessing
phenotype errors that were never supplied fails. -/
noncomputable def fitErrorGlobal (m : EpistasisModel) : Except String EpistasisModel :=
  match m.phen_errors with
  | none => .error "AttributeError: no phenotype errors were supplied"
  | some es =>
    .ok { m with errors := some (fun i =>
      Real.sqrt ((∑ j, ((1 / (m.size : ℚ)) ^ 2 * |m.X i j|) * (es.getD (j : ℕ) 0) ^ 2 : ℚ) : ℝ)) }

/-- Fitted coefficient vector of a model (zero before any fit). -/
def getValues (m : EpistasisModel) : Fin m.size → ℚ := m.values.getD fun _ => 0

/-- Placeholder model, used only to read back the payload of a successful
construction. -/
def defaultModel : EpistasisModel :=
  { size := 0, genotypes := [], phenotypes := [], phen_errors := none, order := 0,
    labels := [], X := 0, X_inv := 0, values := none, errors := none }

/-- Payload of a successful construction. -/
def getModel (e : Except String EpistasisModel) : EpistasisModel :=
  e.toOption.getD defaultModel

/-- Concrete one-site wildtype used by the witnesses. -/
def wt0 : Genotype := ['0']

/-- Concrete complete one-site genotype set (wildtype and single mutant). -/
def gts0 : List Genotype := [['0'], ['1']]

/-- Concrete phenotypes for gts0. -/
def ph0 : List ℚ := [1, 3]

/-- Concrete phenotype errors for gts0. -/
def er0 : List ℚ := [1, 2]

/-- Concrete singular genotype set: duplicate genotype rows. -/
def gtsDup : List Genotype := [['0'], ['0']]

/-- Concrete two-site genotype set for the hadamard weight witness. -/
def gts4 : List Genotype := [['0','0'], ['0','1'], ['1','0'], ['1','1']]

/-- Local model built from the concrete inputs, no errors supplied. -/
def ML0 : EpistasisModel := getModel (mkLocalModel wt0 gts0 ph0 none)

/-- Global model built from the concrete inputs, no errors supplied. -/
def MG0 : EpistasisModel := getModel (mkGlobalModel wt0 gts0 ph0 none)

/-- Local model built from the concrete inputs with errors supplied. -/
def MLe : EpistasisModel := getModel (mkLocalModel wt0 gts0 ph0 (some er0))

/-- Global model built from the concrete inputs with errors supplied. -/
def MGe : EpistasisModel := getModel (mkGlobalModel wt0 gts0 ph0 (some er0))

theorem detExpand_eq_det : ∀ {n : ℕ} (A : Matrix (Fin n) (Fin n) ℚ), detExpand A = A.det
  | 0, A => by rw [Matrix.det_fin_zero]; rfl
  | n+1, A => by
    rw [Matrix.det_succ_row_zero]
    show (∑ j : Fin (n+1), (-1) ^ (j : ℕ) * A 0 j * detExpand (A.submatrix Fin.succ j.succAbove)) = _
    exact Finset.sum_congr rfl fun j _ => by rw [detExpand_eq_det]

theorem adjugateExpand_eq_adjugate : ∀ {n : ℕ} (A : Matrix (Fin n) (Fin n) ℚ),
    adjugateExpand A = A.adjugate
  | 0, A => funext fun i => i.elim0
  | n+1, A => by
    funext i j
    show (-1) ^ ((j : ℕ) + (i : ℕ)) * detExpand (A.submatrix j.succAbove i.succAbove) = _
    rw [Matrix.adjugate_fin_succ_eq_det_submatrix, detExpand_eq_det]

theorem matInv_ok {n : ℕ} {A B : Matrix (Fin n) (Fin n) ℚ} (h : matInv A = .ok B) :
    A * B = 1 ∧ B * A = 1 := by
  unfold matInv at h
  by_cases hd : detExpand A = 0
  · simp [hd] at h
  · simp only [hd, if_false, Except.ok.injEq] at h
    subst h
    rw [adjugateExpand_eq_adjugate, detExpand_eq_det]
    have hd' : A.det ≠ 0 := by rwa [detExpand_eq_det] at hd
    constructor
    · rw [Matrix.mul_smul, Matrix.mul_adjugate, smul_smul, inv_mul_cancel₀ hd', one_smul]
    · rw [Matrix.smul_mul, Matrix.adjugate_mul, smul_smul, inv_mul_cancel₀ hd', one_smul]

theorem matInv_error_iff {n : ℕ} (A : Matrix (Fin n) (Fin n) ℚ) :
    matInv A = .error "LinAlgError: Singular matrix" ↔ A.det = 0 := by
  unfold matInv
  rw [detExpand_eq_det]
  by_cases hd : A.det = 0 <;> simp [hd]

theorem matInv_isOk_of_det {n : ℕ} {A : Matrix (Fin n) (Fin n) ℚ} (h : A.det ≠ 0) :
    matInv A = .ok ((detExpand A)⁻¹ • adjugateExpand A) := by
  unfold matInv
  rw [detExpand_eq_det, if_neg h]

theorem mkLocalModel_eq (wt : Genotype) (gts : List Genotype) (ph : List ℚ)
    (er : Option (List ℚ)) : mkLocalModel wt gts ph er = mkModelWith encodingLocal wt gts ph er := rfl

theorem mkGlobalModel_eq (wt : Genotype) (gts : List Genotype) (ph : List ℚ)
    (er : Option (List ℚ)) : mkGlobalModel wt gts ph er = mkModelWith encodingGlobal wt gts ph er := rfl

theorem mkModelWith_ok_elim {enc : Char → ℚ} {wt : Genotype} {gts : List Genotype}
    {ph : List ℚ} {er : Option (List ℚ)} {m : EpistasisModel}
    (h : mkModelWith enc wt gts ph er = .ok m) :
    ph.length = gts.length ∧ errorsLengthBad er gts = false ∧
    (modelLabels wt).length = gts.length ∧
    ∃ Xi, matInv (designMatrix enc gts (modelLabels wt)) = .ok Xi ∧
      m = { size := gts.length, genotypes := gts, phenotypes := ph, phen_errors := er,
            order := wt.length, labels := modelLabels wt,
            X := designMatrix enc gts (modelLabels wt), X_inv := Xi,
            values := none, errors := none } := by
  unfold mkModelWith at h
  by_cases h1 : ph.length = gts.length
  · rw [if_neg (by simpa using h1)] at h
    by_cases h2 : errorsLengthBad er gts
    · rw [if_pos h2] at h; cases h
    · rw [if_neg h2] at h
      by_cases h3 : (modelLabels wt).length = gts.length
      · rw [if_neg (by simpa using h3)] at h
        cases hInv : matInv (designMatrix enc gts (modelLabels wt)) with
        | error e => rw [hInv] at h; cases h
        | ok Xi =>
          rw [hInv] at h
          cases h
          exact ⟨h1, by simpa using h2, h3, Xi, rfl, rfl⟩
      · rw [if_pos (by simpa using h3)] at h; cases h
  · rw [if_pos (by simpa using h1)] at h; cases h

theorem list_prod_zero_or_one {l : List ℚ} (h : ∀ x ∈ l, x = 0 ∨ x = 1) :
    l.prod = 0 ∨ l.prod = 1 := by
  induction l with
  | nil => right; rfl
  | cons a t ih =>
    rw [List.prod_cons]
    rcases h a (List.mem_cons_self a t) with ha | ha <;>
      rcases ih (fun x hx => h x (List.mem_cons_of_mem a hx)) with hi | hi <;>
      simp [ha, hi]

theorem list_prod_one_or_neg_one {l : List ℚ} (h : ∀ x ∈ l, x = 1 ∨ x = -1) :
    l.prod = 1 ∨ l.prod = -1 := by
  induction l with
  | nil => left; rfl
  | cons a t ih =>
    rw [List.prod_cons]
    rcases h a (List.mem_cons_self a t) with ha | ha <;>
      rcases ih (fun x hx => h x (List.mem_cons_of_mem a hx)) with hi | hi <;>
      simp [ha, hi]

theorem encodingLocal_cases (c : Char) : encodingLocal c = 0 ∨ encodingLocal c = 1 := by
  unfold encodingLocal
  by_cases hc : c = '1' <;> simp [hc]

theorem encodingGlobal_cases (c : Char) : encodingGlobal c = 1 ∨ encodingGlobal c = -1 := by
  unfold encodingGlobal
  by_cases hc : c = '1' <;> simp [hc]

theorem dvEntry_local_zero_or_one (g : Genotype) (L : Label) :
    dvEntry encodingLocal g L = 0 ∨ dvEntry encodingLocal g L = 1 := by
  refine list_prod_zero_or_one fun x hx => ?_
  rw [List.mem_map] at hx
  obtain ⟨s, _, rfl⟩ := hx
  exact encodingLocal_cases _

theorem dvEntry_global_one_or_neg_one (g : Genotype) (L : Label) :
    dvEntry encodingGlobal g L = 1 ∨ dvEntry encodingGlobal g L = -1 := by
  refine list_prod_one_or_neg_one fun x hx => ?_
  rw [List.mem_map] at hx
  obtain ⟨s, _, rfl⟩ := hx
  exact encodingGlobal_cases _

theorem designMatrix_local_sq {gts : List Genotype} {lbs : List Label}
    (i j : Fin gts.length) :
    designMatrix encodingLocal gts lbs i j ^ 2 = designMatrix encodingLocal gts lbs i j := by
  rcases dvEntry_local_zero_or_one (gts.get i) (lbs.getD (j : ℕ) []) with h | h <;>
    · show dvEntry encodingLocal (gts.get i) (lbs.getD (j : ℕ) []) ^ 2 =
        dvEntry encodingLocal (gts.get i) (lbs.getD (j : ℕ) [])
      rw [h]; norm_num

theorem designMatrix_global_abs {gts : List Genotype} {lbs : List Label}
    (i j : Fin gts.length) : |designMatrix encodingGlobal gts lbs i j| = 1 := by
  rcases dvEntry_global_one_or_neg_one (gts.get i) (lbs.getD (j : ℕ) []) with h | h <;>
    · show |dvEntry encodingGlobal (gts.get i) (lbs.getD (j : ℕ) [])| = (1 : ℚ)
      rw [h]; norm_num

/-- C9: cut_interaction_labels returns exactly the labels of the input whose
size is at most the given order, as a sublist (so preserving relative order and
multiplicity), and returns the input unchanged when every label already has
size at most the order. -/
theorem cut_interaction_labels_spec (labels : List Label) (order : ℕ) :
    List.Sublist (cut_interaction_labels labels order) labels ∧
    (∀ l, l ∈ cut_interaction_labels labels order ↔ l ∈ labels ∧ l.length ≤ order) ∧
    (∀ l, (cut_interaction_labels labels order).count l =
      if l.length ≤ order then labels.count l else 0) ∧
    ((∀ l ∈ labels, l.length ≤ order) → cut_interaction_labels labels order = labels) := by
  unfold cut_interaction_labels
  refine ⟨List.filter_sublist labels, ?_, ?_, ?_⟩
  · intro l
    simp [List.mem_filter]
  · intro l
    by_cases hl : l.length ≤ order
    · rw [if_pos hl, List.count_filter (by simpa using hl)]
    · rw [if_neg hl, List.count_eq_zero]
      simp [List.mem_filter, hl]
  · intro hall
    rw [List.filter_eq_self]
    intro a ha
    simpa using hall a ha

/-- C9 witness: on the concrete list [[], [1], [1,2]] the truncation at order 1
is a sublist, membership is as described, and truncation at order 2 returns the
list unchanged. -/
theorem cut_interaction_labels_spec_witness :
    List.Sublist (cut_interaction_labels [[], [1], [1,2]] 1) [[], [1], [1,2]] ∧
    (([1] : Label) ∈ cut_interaction_labels [[], [1], [1,2]] 1 ↔
      ([1] : Label) ∈ [[], [1], [1,2]] ∧ ([1] : Label).length ≤ 1) ∧
    cut_interaction_labels [[], [1], [1,2]] 2 = [[], [1], [1,2]] :=
  ⟨(cut_interaction_labels_spec [[], [1], [1,2]] 1).1,
   (cut_interaction_labels_spec [[], [1], [1,2]] 1).2.1 [1],
   (cut_interaction_labels_spec [[], [1], [1,2]] 2).2.2.2 (by with_unfolding_all decide)⟩

/-- C10: on a non-empty list of equal-length genotypes, hadamard_weight_vector
is a square diagonal matrix (side = number of genotypes): off-diagonal entries
are 0, and the diagonal entry for genotype g is (-1)^k / 2^(n-k), where k is
the number of '1' characters of g and n the common genotype length. -/
theorem hadamard_weight_vector_spec (genotypes : List Genotype) (n : ℕ)
    (hne : genotypes ≠ []) (hlen : ∀ g ∈ genotypes, g.length = n) :
    ∀ i j : Fin genotypes.length,
      (i ≠ j → hadamard_weight_vector genotypes i j = 0) ∧
      hadamard_weight_vector genotypes i i =
        ((-1 : ℚ) ^ ((genotypes.get i).count '1')) /
          (2 : ℚ) ^ (n - (genotypes.get i).count '1') := by
  intro i j
  constructor
  · intro hij
    show (if i = j then _ else 0) = 0
    rw [if_neg hij]
  · show (if i = i then ((-1 : ℚ) ^ ((genotypes.get i).count '1')) /
        (2 : ℚ) ^ ((((genotypes.headD []).length : ℤ)) - (((genotypes.get i).count '1' : ℕ) : ℤ))
      else 0) = _
    rw [if_pos rfl]
    obtain ⟨b, t, rfl⟩ := List.exists_cons_of_ne_nil hne
    have hhead : ((b :: t).headD []).length = n := hlen b (List.mem_cons_self b t)
    have hk : ((b :: t).get i).count '1' ≤ n := by
      rw [← hlen ((b :: t).get i) (List.get_mem (b :: t) i.1 i.2)]
      exact List.count_le_length '1' ((b :: t).get i)
    rw [hhead]
    congr 1
    rw [← zpow_natCast (2 : ℚ) (n - ((b :: t).get i).count '1')]
    congr 1
    omega

/-- C10 witness: for the concrete two-site genotype list, the entry at row 1,
column 0 is zero and the diagonal entry of genotype "01" is (-1)^1 / 2^(2-1). -/
theorem hadamard_weight_vector_spec_witness :
    (hadamard_weight_vector gts4 ⟨1, by with_unfolding_all decide⟩ ⟨0, by with_unfolding_all decide⟩ = 0) ∧
    hadamard_weight_vector gts4 ⟨1, by with_unfolding_all decide⟩ ⟨1, by with_unfolding_all decide⟩ =
      ((-1 : ℚ) ^ ((gts4.get ⟨1, by with_unfolding_all decide⟩).count '1')) /
        (2 : ℚ) ^ (2 - (gts4.get ⟨1, by with_unfolding_all decide⟩).count '1') :=
  ⟨(hadamard_weight_vector_spec gts4 2 (by with_unfolding_all decide)
      (by with_unfolding_all decide) ⟨1, by with_unfolding_all decide⟩ ⟨0, by with_unfolding_all decide⟩).1
      (by with_unfolding_all decide),
   (hadamard_weight_vector_spec gts4 2 (by with_unfolding_all decide)
      (by with_unfolding_all decide) ⟨1, by with_unfolding_all decide⟩ ⟨0, by with_unfolding_all decide⟩).2⟩

/-- C5: the two model variants are the same parameterized construction applied
to different character encodings, and the encodings agree on '1' (both map it
to 1) while the local one maps '0' to 0 and the global one maps '0' to -1; in
particular label enumeration and every other construction step coincide. -/
theorem variants_differ_only_in_encoding :
    (∀ wt gts ph er, mkLocalModel wt gts ph er = mkModelWith encodingLocal wt gts ph er) ∧
    (∀ wt gts ph er, mkGlobalModel wt gts ph er = mkModelWith encodingGlobal wt gts ph er) ∧
    encodingLocal '1' = 1 ∧ encodingGlobal '1' = 1 ∧
    encodingLocal '0' = 0 ∧ encodingGlobal '0' = -1 :=
  ⟨fun _ _ _ _ => rfl, fun _ _ _ _ => rfl, by simp [encodingLocal], by simp [encodingGlobal],
   by simp [encodingLocal], by simp [encodingGlobal]⟩

/-- C8: fit_error on a model constructed without a phenotype error vector fails
with an error instead of proceeding, for both variants. -/
theorem fit_error_without_errors_fails (wt : Genotype) (gts : List Genotype) (ph : List ℚ)
    (ml mg : EpistasisModel)
    (hl : mkLocalModel wt gts ph none = .ok ml) (hg : mkGlobalModel wt gts ph none = .ok mg) :
    fitErrorLocal ml = .error "AttributeError: no phenotype errors were supplied" ∧
    fitErrorGlobal mg = .error "AttributeError: no phenotype errors were supplied" := by
  rw [mkLocalModel_eq] at hl
  rw [mkGlobalModel_eq] at hg
  obtain ⟨-, -, -, Xi, -, rfl⟩ := mkModelWith_ok_elim hl
  obtain ⟨-, -, -, Xj, -, rfl⟩ := mkModelWith_ok_elim hg
  exact ⟨rfl, rfl⟩

/-- C8 witness: the concrete models built without errors make fit_error fail. -/
theorem fit_error_without_errors_fails_witness :
    mkLocalModel wt0 gts0 ph0 none = .ok ML0 ∧
    fitErrorLocal ML0 = .error "AttributeError: no phenotype errors were supplied" ∧
    fitErrorGlobal MG0 = .error "AttributeError: no phenotype errors were supplied" :=
  ⟨by with_unfolding_all rfl,
   fit_error_without_errors_fails wt0 gts0 ph0 ML0 MG0
     (by with_unfolding_all rfl) (by with_unfolding_all rfl)⟩

theorem mkModelWith_valid (enc : Char → ℚ) (wt : Genotype) (gts : List Genotype)
    (ph : List ℚ) (er : Option (List ℚ))
    (h1 : ph.length = gts.length) (h2 : errorsLengthBad er gts = false)
    (h3 : (modelLabels wt).length = gts.length) :
    mkModelWith enc wt gts ph er =
      match matInv (designMatrix enc gts (modelLabels wt)) with
      | .error e => .error e
      | .ok Xi =>
        .ok { size := gts.length, genotypes := gts, phenotypes := ph, phen_errors := er,
              order := wt.length, labels := modelLabels wt,
              X := designMatrix enc gts (modelLabels wt), X_inv := Xi,
              values := none, errors := none } := by
  unfold mkModelWith
  rw [if_neg (not_ne_iff.mpr h1), if_neg (by simp [h2]), if_neg (not_ne_iff.mpr h3)]

/-- C7: with aligned inputs, a singular design matrix makes model construction
raise LinAlgError, and a non-singular design constructs a model whose cached
X_inv is the exact two-sided inverse of X (so no NaN or garbage coefficients);
both variants. In this exact-arithmetic model inversion fails precisely on
det = 0. -/
theorem singular_design_raises (wt : Genotype) (gts : List Genotype) (ph : List ℚ)
    (er : Option (List ℚ))
    (h1 : ph.length = gts.length) (h2 : errorsLengthBad er gts = false)
    (h3 : (modelLabels wt).length = gts.length) :
    ((designMatrix encodingLocal gts (modelLabels wt)).det = 0 →
      mkLocalModel wt gts ph er = .error "LinAlgError: Singular matrix") ∧
    ((designMatrix encodingLocal gts (modelLabels wt)).det ≠ 0 →
      ∃ m, mkLocalModel wt gts ph er = .ok m ∧ m.X * m.X_inv = 1 ∧ m.X_inv * m.X = 1) ∧
    ((designMatrix encodingGlobal gts (modelLabels wt)).det = 0 →
      mkGlobalModel wt gts ph er = .error "LinAlgError: Singular matrix") ∧
    ((designMatrix encodingGlobal gts (modelLabels wt)).det ≠ 0 →
      ∃ m, mkGlobalModel wt gts ph er = .ok m ∧ m.X * m.X_inv = 1 ∧ m.X_inv * m.X = 1) := by
  refine ⟨?_, ?_, ?_, ?_⟩
  · intro hdet
    rw [mkLocalModel_eq, mkModelWith_valid encodingLocal wt gts ph er h1 h2 h3,
      (matInv_error_iff _).mpr hdet]
  · intro hdet
    have hInv := matInv_isOk_of_det hdet
    rw [mkLocalModel_eq, mkModelWith_valid encodingLocal wt gts ph er h1 h2 h3, hInv]
    exact ⟨_, rfl, (matInv_ok hInv).1, (matInv_ok hInv).2⟩
  · intro hdet
    rw [mkGlobalModel_eq, mkModelWith_valid encodingGlobal wt gts ph er h1 h2 h3,
      (matInv_error_iff _).mpr hdet]
  · intro hdet
    have hInv := matInv_isOk_of_det hdet
    rw [mkGlobalModel_eq, mkModelWith_valid encodingGlobal wt gts ph er h1 h2 h3, hInv]
    exact ⟨_, rfl, (matInv_ok hInv).1, (matInv_ok hInv).2⟩

/-- C7 witness: the duplicate-row design raises LinAlgError for both variants,
and the complete one-site design constructs with an exact inverse. -/
theorem singular_design_raises_witness :
    mkLocalModel wt0 gtsDup [1, 1] none = .error "LinAlgError: Singular matrix" ∧
    mkGlobalModel wt0 gtsDup [1, 1] none = .error "LinAlgError: Singular matrix" ∧
    ∃ m, mkLocalModel wt0 gts0 ph0 none = .ok m ∧ m.X * m.X_inv = 1 ∧ m.X_inv * m.X = 1 :=
  ⟨(singular_design_raises wt0 gtsDup [1, 1] none (by with_unfolding_all decide)
      (by with_unfolding_all decide) (by with_unfolding_all decide)).1
      (by rw [← detExpand_eq_det]; with_unfolding_all decide),
   (singular_design_raises wt0 gtsDup [1, 1] none (by with_unfolding_all decide)
      (by with_unfolding_all decide) (by with_unfolding_all decide)).2.2.1
      (by rw [← detExpand_eq_det]; with_unfolding_all decide),
   (singular_design_raises wt0 gts0 ph0 none (by with_unfolding_all decide)
      (by with_unfolding_all decide) (by with_unfolding_all decide)).2.1
      (by rw [← detExpand_eq_det]; with_unfolding_all decide)⟩

/-- C2: for a successfully constructed model, X_inv is the exact inverse of X,
fit of the local model sets the coefficient vector to X_inv times the
phenotype vector, and fit of the global model additionally scales that product
by 1/N with N the number of genotypes. -/
theorem fit_computes_inverse_solution (wt : Genotype) (gts : List Genotype) (ph : List ℚ)
    (er : Option (List ℚ)) (ml mg : EpistasisModel)
    (hl : mkLocalModel wt gts ph er = .ok ml) (hg : mkGlobalModel wt gts ph er = .ok mg) :
    (ml.X * ml.X_inv = 1 ∧ ml.X_inv * ml.X = 1 ∧
      fitLocal ml = { ml with values := some (ml.X_inv.mulVec (phenVec ml)) }) ∧
    (mg.X * mg.X_inv = 1 ∧ mg.X_inv * mg.X = 1 ∧ mg.size = gts.length ∧
      fitGlobal mg = { mg with
        values := some (fun i => (1 / (gts.length : ℚ)) * mg.X_inv.mulVec (phenVec mg) i) }) := by
  rw [mkLocalModel_eq] at hl
  rw [mkGlobalModel_eq] at hg
  obtain ⟨-, -, -, Xi, hInvL, rfl⟩ := mkModelWith_ok_elim hl
  obtain ⟨-, -, -, Xj, hInvG, rfl⟩ := mkModelWith_ok_elim hg
  exact ⟨⟨(matInv_ok hInvL).1, (matInv_ok hInvL).2, rfl⟩,
    ⟨(matInv_ok hInvG).1, (matInv_ok hInvG).2, rfl, rfl⟩⟩

/-- C2 witness: instantiation at the concrete complete one-site design. -/
theorem fit_computes_inverse_solution_witness :
    (ML0.X * ML0.X_inv = 1 ∧ ML0.X_inv * ML0.X = 1 ∧
      fitLocal ML0 = { ML0 with values := some (ML0.X_inv.mulVec (phenVec ML0)) }) ∧
    (MG0.X * MG0.X_inv = 1 ∧ MG0.X_inv * MG0.X = 1 ∧ MG0.size = gts0.length ∧
      fitGlobal MG0 = { MG0 with
        values := some (fun i => (1 / (gts0.length : ℚ)) * MG0.X_inv.mulVec (phenVec MG0) i) }) :=
  fit_computes_inverse_solution wt0 gts0 ph0 none ML0 MG0
    (by with_unfolding_all rfl) (by with_unfolding_all rfl)

/-- C1 (amended): after fit, X times the coefficient vector equals the
phenotype vector for the local model; for the global model it equals the
phenotype vector scaled by 1/N (N = number of genotypes), because fit divides
the raw product by N. -/
theorem fit_roundtrip (wt : Genotype) (gts : List Genotype) (ph : List ℚ)
    (er : Option (List ℚ)) (ml mg : EpistasisModel)
    (hl : mkLocalModel wt gts ph er = .ok ml) (hg : mkGlobalModel wt gts ph er = .ok mg) :
    ml.X.mulVec (getValues (fitLocal ml)) = phenVec ml ∧
    mg.X.mulVec (getValues (fitGlobal mg)) =
      fun i => (1 / (gts.length : ℚ)) * phenVec mg i := by
  rw [mkLocalModel_eq] at hl
  rw [mkGlobalModel_eq] at hg
  obtain ⟨-, -, -, Xi, hInvL, rfl⟩ := mkModelWith_ok_elim hl
  obtain ⟨-, -, -, Xj, hInvG, rfl⟩ := mkModelWith_ok_elim hg
  constructor
  · show (designMatrix encodingLocal gts (modelLabels wt)).mulVec (Xi.mulVec _) = _
    rw [Matrix.mulVec_mulVec, (matInv_ok hInvL).1, Matrix.one_mulVec]
  · show (designMatrix encodingGlobal gts (modelLabels wt)).mulVec
      ((1 / (gts.length : ℚ)) • Xj.mulVec _) = (1 / (gts.length : ℚ)) • _
    rw [Matrix.mulVec_smul, Matrix.mulVec_mulVec, (matInv_ok hInvG).1, Matrix.one_mulVec]

/-- C1 witness: instantiation of the amended round-trip at the concrete
complete one-site design. -/
theorem fit_roundtrip_witness :
    ML0.X.mulVec (getValues (fitLocal ML0)) = phenVec ML0 ∧
    MG0.X.mulVec (getValues (fitGlobal MG0)) =
      fun i => (1 / (gts0.length : ℚ)) * phenVec MG0 i :=
  fit_roundtrip wt0 gts0 ph0 none ML0 MG0
    (by with_unfolding_all rfl) (by with_unfolding_all rfl)

/-- C1 counterexample: for the concrete complete one-site design (invertible X,
construction succeeds), the global model's fitted coefficients do not reproduce
the phenotypes: X times the coefficient vector is half the phenotype vector. -/
theorem global_roundtrip_fails :
    mkGlobalModel wt0 gts0 ph0 none = .ok MG0 ∧
    MG0.X.mulVec (getValues (fitGlobal MG0)) ≠ phenVec MG0 :=
  ⟨by with_unfolding_all rfl, by with_unfolding_all decide⟩

/-- C6: construction leaves the outputs unset and caches an exact two-sided
inverse of X; fit only sets the value vector and fit_error (when it succeeds)
only sets the error vector — every other component of the model state, in
particular X and X_inv, is left unchanged, so every later fit reuses the
cached inverse. -/
theorem model_state_frame :
    (∀ m, ∃ v, fitLocal m = { m with values := some v }) ∧
    (∀ m, ∃ v, fitGlobal m = { m with values := some v }) ∧
    (∀ m mm, fitErrorLocal m = .ok mm → ∃ e, mm = { m with errors := some e }) ∧
    (∀ m mm, fitErrorGlobal m = .ok mm → ∃ e, mm = { m with errors := some e }) ∧
    (∀ wt gts ph er m, mkLocalModel wt gts ph er = .ok m →
      m.values = none ∧ m.errors = none ∧ m.X * m.X_inv = 1 ∧ m.X_inv * m.X = 1) ∧
    (∀ wt gts ph er m, mkGlobalModel wt gts ph er = .ok m →
      m.values = none ∧ m.errors = none ∧ m.X * m.X_inv = 1 ∧ m.X_inv * m.X = 1) := by
  refine ⟨fun m => ⟨_, rfl⟩, fun m => ⟨_, rfl⟩, ?_, ?_, ?_, ?_⟩
  · intro m mm h
    unfold fitErrorLocal at h
    cases hpe : m.phen_errors with
    | none => rw [hpe] at h; cases h
    | some es =>
      rw [hpe] at h
      cases h
      exact ⟨_, rfl⟩
  · intro m mm h
    unfold fitErrorGlobal at h
    cases hpe : m.phen_errors with
    | none => rw [hpe] at h; cases h
    | some es =>
      rw [hpe] at h
      cases h
      exact ⟨_, rfl⟩
  · intro wt gts ph er m h
    rw [mkLocalModel_eq] at h
    obtain ⟨-, -, -, Xi, hInv, rfl⟩ := mkModelWith_ok_elim h
    exact ⟨rfl, rfl, (matInv_ok hInv).1, (matInv_ok hInv).2⟩
  · intro wt gts ph er m h
    rw [mkGlobalModel_eq] at h
    obtain ⟨-, -, -, Xi, hInv, rfl⟩ := mkModelWith_ok_elim h
    exact ⟨rfl, rfl, (matInv_ok hInv).1, (matInv_ok hInv).2⟩

/-- C6 witness: instantiation at the concrete models. -/
theorem model_state_frame_witness :
    (∃ v, fitLocal ML0 = { ML0 with values := some v }) ∧
    (∃ v, fitGlobal MG0 = { MG0 with values := some v }) ∧
    (∃ e, getModel (fitErrorLocal MLe) = { MLe with errors := some e }) ∧
    (∃ e, getModel (fitErrorGlobal MGe) = { MGe with errors := some e }) ∧
    (ML0.values = none ∧ ML0.errors = none ∧ ML0.X * ML0.X_inv = 1 ∧ ML0.X_inv * ML0.X = 1) :=
  ⟨model_state_frame.1 ML0,
   model_state_frame.2.1 MG0,
   model_state_frame.2.2.1 MLe (getModel (fitErrorLocal MLe)) (by with_unfolding_all rfl),
   model_state_frame.2.2.2.1 MGe (getModel (fitErrorGlobal MGe)) (by with_unfolding_all rfl),
   model_state_frame.2.2.2.2.1 wt0 gts0 ph0 none ML0 (by with_unfolding_all rfl)⟩

/-- C3: on a local model whose phenotype errors were supplied, fit_error sets
each coefficient's error to the square root of the dot product of the
corresponding row of X (used directly, no absolute value) with the squared
phenotype errors; since the local design entries are 0/1, this coincides with
the error-propagation form using squared transform entries. -/
theorem local_fit_error_spec (wt : Genotype) (gts : List Genotype) (ph : List ℚ)
    (es : List ℚ) (m : EpistasisModel)
    (h : mkLocalModel wt gts ph (some es) = .ok m) :
    fitErrorLocal m = .ok { m with errors := some (fun i =>
      Real.sqrt ((∑ j, m.X i j * (es.getD (j : ℕ) 0) ^ 2 : ℚ) : ℝ)) } ∧
    fitErrorLocal m = .ok { m with errors := some (fun i =>
      Real.sqrt ((∑ j, m.X i j ^ 2 * (es.getD (j : ℕ) 0) ^ 2 : ℚ) : ℝ)) } := by
  rw [mkLocalModel_eq] at h
  obtain ⟨-, -, -, Xi, -, rfl⟩ := mkModelWith_ok_elim h
  have hfun : (fun (i : Fin gts.length) =>
      Real.sqrt ((∑ j, designMatrix encodingLocal gts (modelLabels wt) i j *
        (es.getD (j : ℕ) 0) ^ 2 : ℚ) : ℝ)) = (fun i =>
      Real.sqrt ((∑ j, designMatrix encodingLocal gts (modelLabels wt) i j ^ 2 *
        (es.getD (j : ℕ) 0) ^ 2 : ℚ) : ℝ)) := by
    funext i
    congr 1
    exact congrArg _ (Finset.sum_congr rfl fun j _ => by rw [designMatrix_local_sq])
  exact ⟨rfl, by rw [← hfun]; rfl⟩

/-- C3 witness: instantiation at the concrete local model with errors. -/
theorem local_fit_error_spec_witness :
    mkLocalModel wt0 gts0 ph0 (some er0) = .ok MLe ∧
    (fitErrorLocal MLe = .ok { MLe with errors := some (fun i =>
      Real.sqrt ((∑ j, MLe.X i j * (er0.getD (j : ℕ) 0) ^ 2 : ℚ) : ℝ)) } ∧
    fitErrorLocal MLe = .ok { MLe with errors := some (fun i =>
      Real.sqrt ((∑ j, MLe.X i j ^ 2 * (er0.getD (j : ℕ) 0) ^ 2 : ℚ) : ℝ)) }) :=
  ⟨by with_unfolding_all rfl,
   local_fit_error_spec wt0 gts0 ph0 er0 MLe (by with_unfolding_all rfl)⟩

/-- C4: on a global model whose phenotype errors were supplied, fit_error sets
each coefficient's error to the square root of the dot product of the
elementwise absolute value of X scaled by (1/N)² (N = number of genotypes)
with the squared phenotype errors; the entries of the global design are ±1, so
the elementwise absolute value of X is the all-ones matrix. -/
theorem global_fit_error_spec (wt : Genotype) (gts : List Genotype) (ph : List ℚ)
    (es : List ℚ) (m : EpistasisModel)
    (h : mkGlobalModel wt gts ph (some es) = .ok m) :
    (fitErrorGlobal m = .ok { m with errors := some (fun i =>
      Real.sqrt (((1 / (gts.length : ℚ)) ^ 2 *
        ∑ j, |m.X i j| * (es.getD (j : ℕ) 0) ^ 2 : ℚ) : ℝ)) }) ∧
    (∀ i j, |m.X i j| = 1) := by
  rw [mkGlobalModel_eq] at h
  obtain ⟨-, -, -, Xi, -, rfl⟩ := mkModelWith_ok_elim h
  refine ⟨?_, fun i j => designMatrix_global_abs i j⟩
  have hfun : (fun (i : Fin gts.length) =>
      Real.sqrt ((∑ j, ((1 / (gts.length : ℚ)) ^ 2 *
        |designMatrix encodingGlobal gts (modelLabels wt) i j|) *
        (es.getD (j : ℕ) 0) ^ 2 : ℚ) : ℝ)) = (fun i =>
      Real.sqrt (((1 / (gts.length : ℚ)) ^ 2 *
        ∑ j, |designMatrix encodingGlobal gts (modelLabels wt) i j| *
        (es.getD (j : ℕ) 0) ^ 2 : ℚ) : ℝ)) := by
    funext i
    congr 1
    refine congrArg _ ?_
    rw [Finset.mul_sum]
    exact Finset.sum_congr rfl fun j _ => by ring
  rw [← hfun]
  rfl

/-- C4 witness: instantiation at the concrete global model with errors. -/
theorem global_fit_error_spec_witness :
    mkGlobalModel wt0 gts0 ph0 (some er0) = .ok MGe ∧
    ((fitErrorGlobal MGe = .ok { MGe with errors := some (fun i =>
      Real.sqrt (((1 / (gts0.length : ℚ)) ^ 2 *
        ∑ j, |MGe.X i j| * (er0.getD (j : ℕ) 0) ^ 2 : ℚ) : ℝ)) }) ∧
    (∀ i j, |MGe.X i j| = 1)) :=
  ⟨by with_unfolding_all rfl,
   global_fit_error_spec wt0 gts0 ph0 er0 MGe (by with_unfolding_all rfl)⟩
